import Mathlib

/-!
Shallow embedding of the request-orchestration core of the
Azure_OpenAI_App repository (`PYTHON/azure_openai_service.py`,
`PYTHON/monitoring.py`, `Models/document_models.py`), together with
theorems settling the specification claims about it.

Conventions.  `datetime` timestamps are modelled as integers (seconds);
token counts as naturals; latencies, backoff delays and monetary cost as
rationals.  Logging calls are side-effect free and not modelled.
`async` control flow is modelled sequentially: every critical section of
the source is serialized by its `asyncio.Lock`, so the lock-serialized
behaviour of each stateful component is a fold over the sequence of
calls it receives.  Python strings are modelled as `List Char`.
-/

/-! ### Budget tracker: `RateLimiter` (azure_openai_service.py lines 24-59) -/

/-- Constructor arguments of `RateLimiter.__init__` (lines 27-33). -/
structure RateLimiterConfig where
  max_requests : Nat
  max_tokens : Nat
  window_seconds : Int

/-- Mutable state of a `RateLimiter`: `self.requests` (bare timestamps) and
`self.tokens_used` ((timestamp, token-count) pairs), lines 31-32. -/
structure RateLimiterState where
  requests : List Int
  tokens_used : List (Int × Nat)

/-- The freshly constructed state: both ledgers empty (lines 31-32). -/
def RateLimiterState.init : RateLimiterState := ⟨[], []⟩

/-- Lines 39-43: `cutoff = now - window_seconds`; keep exactly the entries with
timestamp strictly greater than `cutoff`. -/
def pruneState (cfg : RateLimiterConfig) (s : RateLimiterState) (now : Int) : RateLimiterState :=
  { requests := s.requests.filter (fun r => now - cfg.window_seconds < r),
    tokens_used := s.tokens_used.filter (fun e => now - cfg.window_seconds < e.1) }

/-- Line 47: `sum(tokens for _, tokens in self.tokens_used)`. -/
def tokenSum (s : RateLimiterState) : Nat := (s.tokens_used.map Prod.snd).sum

/-- One admission decision of `RateLimiter.acquire` (lines 37-59) taken at time
`now` for `est` estimated tokens: prune both ledgers (lines 42-43), then reject
when `current_requests >= max_requests or current_tokens + estimated_tokens >
max_tokens` (lines 50-51), otherwise admit, appending `now` and `(now, est)`
(lines 58-59).  On the reject path the pruned ledgers stay assigned to
`self` (the assignments of lines 42-43 already happened); the sleep/retry is
modelled as the caller issuing a later decision step. -/
def acquireStep (cfg : RateLimiterConfig) (s : RateLimiterState) (now : Int) (est : Nat) :
    RateLimiterState × Bool :=
  let p := pruneState cfg s now
  if cfg.max_requests ≤ p.requests.length ∨ cfg.max_tokens < tokenSum p + est then
    (p, false)
  else
    ({ requests := p.requests ++ [now], tokens_used := p.tokens_used ++ [(now, est)] }, true)

/-- The lock-serialized sequence of `acquire` decisions, starting from the
fresh state. -/
def runLimiter (cfg : RateLimiterConfig) (events : List (Int × Nat)) : RateLimiterState :=
  events.foldl (fun s e => (acquireStep cfg s e.1 e.2).1) RateLimiterState.init

/-! ### Control-flow trace of `acquire` (claim about suspension under lock)

`acquire` (lines 35-59) consists of a single `async with self._lock` block
(line 37).  Inside that block it prunes and decides; on the over-limit path it
executes `await asyncio.sleep(wait_time)` (line 54) and then
`return await self.acquire(estimated_tokens)` (line 55) — both still inside
the `async with` block, so both happen with the lock held.  The recursive call
begins by attempting `async with self._lock` again; `asyncio.Lock` is not
reentrant, so that attempt happens at lock depth 1.  The trace below records
each suspension-relevant action paired with the number of holds of
`self._lock` at the moment it runs. -/

inductive LockEv where
  | lockEnter
  | lockExit
  | sleepEv
  | recordEv
  | lockAttempt
deriving DecidableEq

/-- Trace of one `acquire` call; `over = true` means the decision of lines
50-51 found the limit reached.  `lockEnter` is line 37, `sleepEv` line 54,
`lockAttempt` the re-entry of line 37 made by the recursive call of line 55
(it never completes: the lock is already held once), `recordEv` lines 58-59,
`lockExit` the end of the `async with` block. -/
def acquireEventTrace (over : Bool) : List (LockEv × Nat) :=
  (LockEv.lockEnter, 1) ::
    (if over then
      [(LockEv.sleepEv, 1), (LockEv.lockAttempt, 1)]
    else
      [(LockEv.recordEv, 1), (LockEv.lockExit, 0)])

/-! ### Metrics aggregator (monitoring.py lines 8-81) -/

/-- `APIMetrics` dataclass (lines 8-17).  `errors` is the
`defaultdict(int)` modelled as an association list. -/
structure APIMetrics where
  total_requests : Nat
  successful_requests : Nat
  failed_requests : Nat
  total_tokens : Nat
  total_cost_usd : ℚ
  response_times : List ℚ
  errors : List (List Char × Nat)

/-- Dataclass defaults (lines 11-17). -/
def APIMetrics.init : APIMetrics := ⟨0, 0, 0, 0, 0, [], []⟩

/-- `self.metrics.errors[error] += 1` on a `defaultdict(int)` (line 62). -/
def bumpError (e : List Char) : List (List Char × Nat) → List (List Char × Nat)
  | [] => [(e, 1)]
  | (k, n) :: rest => if k = e then (k, n + 1) :: rest else (k, n) :: bumpError e rest

/-- `APIMetrics.success_rate` (lines 19-23). -/
def success_rate (m : APIMetrics) : ℚ :=
  if m.total_requests = 0 then 0 else (m.successful_requests : ℚ) / m.total_requests

/-- `MetricsCollector.record_request` (lines 46-69), body of the
`async with self._lock` block.  Cost accrues `(tokens_used / 1000) * 0.03`
(lines 68-69), modelled exactly over ℚ. -/
def record_request (m : APIMetrics) (success : Bool) (tokens_used : Nat)
    (response_time : ℚ) (error : Option (List Char)) : APIMetrics :=
  let m1 := { m with total_requests := m.total_requests + 1 }
  let m2 :=
    if success then
      { m1 with successful_requests := m1.successful_requests + 1 }
    else
      let m1f := { m1 with failed_requests := m1.failed_requests + 1 }
      match error with
      | some e => { m1f with errors := bumpError e m1f.errors }
      | none => m1f
  { m2 with
    total_tokens := m2.total_tokens + tokens_used,
    response_times := m2.response_times ++ [response_time],
    total_cost_usd := m2.total_cost_usd + (tokens_used : ℚ) / 1000 * (3 / 100) }

/-- One argument tuple of `record_request`. -/
structure ReqEvent where
  success : Bool
  tokens_used : Nat
  response_time : ℚ
  error : Option (List Char)

/-- The lock-serialized sequence of `record_request` calls, from the fresh
`APIMetrics()` of `MetricsCollector.__init__` (line 43). -/
def runMetrics (events : List ReqEvent) : APIMetrics :=
  events.foldl (fun m e => record_request m e.success e.tokens_used e.response_time e.error)
    APIMetrics.init

/-! ### Retrying executor: the `@retry` decorator of `complete_chat`
(azure_openai_service.py lines 93-100)

The decorator is tenacity's; its semantics is modelled from the tenacity
sources.  `wait_exponential(multiplier, max, exp_base, min).__call__`
returns `max(max(0, min), min(multiplier * exp_base ** (attempt_number - 1),
max))`; `stop_after_attempt(3)` allows no attempt after the third;
`retry_if_exception_type((TimeoutError, ConnectionError))` retries exactly
those exception classes. -/

/-- The exception classes relevant to `complete_chat`. -/
inductive ExcKind where
  | timeoutExc
  | connectionExc
  | otherExc
deriving DecidableEq

/-- `retry_if_exception_type((TimeoutError, ConnectionError))` (line 94). -/
def retryableExc : ExcKind → Bool
  | ExcKind.timeoutExc => true
  | ExcKind.connectionExc => true
  | ExcKind.otherExc => false

/-- Python's builtin `max` on two numbers. -/
def pyMax (a b : ℚ) : ℚ := if a < b then b else a

/-- Python's builtin `min` on two numbers. -/
def pyMin (a b : ℚ) : ℚ := if b < a then b else a

/-- `wait_exponential(multiplier=1, min=2, max=10)` (line 95) evaluated after
the failure of attempt `attempt_number`:
`max(max(0, 2), min(1 * 2 ** (attempt_number - 1), 10))`. -/
def wait_exponential_chat (attempt_number : Nat) : ℚ :=
  pyMax (pyMax 0 2) (pyMin (1 * 2 ^ (attempt_number - 1)) 10)

/-- The tenacity driver loop for `complete_chat`.  `f n` is the outcome of the
`n`-th attempt (1-based) at the decorated coroutine; the result records the
number of the last attempt made, the list of backoff delays waited, and the
final outcome.  On a failure that is retryable and below the stop bound
(`stop_after_attempt`, via `n < maxA`), tenacity waits and re-attempts;
otherwise the failure propagates.  `fuel` is `maxA - n` at every call, so the
`fuel = 0` branch is only ever reached at the final permitted attempt. -/
def tenacityGo {α : Type} (f : Nat → Except ExcKind α) (maxA : Nat) :
    Nat → Nat → Nat × List ℚ × Except ExcKind α
  | 0, n => (n, [], f n)
  | fuel + 1, n =>
    match f n with
    | Except.ok a => (n, [], Except.ok a)
    | Except.error e =>
      if retryableExc e = true ∧ n < maxA then
        let rest := tenacityGo f maxA fuel (n + 1)
        (rest.1, wait_exponential_chat n :: rest.2.1, rest.2.2)
      else
        (n, [], Except.error e)

/-- One call of the decorated `complete_chat`: `stop_after_attempt(3)`
(line 96), first attempt numbered 1. -/
def complete_chat_run {α : Type} (f : Nat → Except ExcKind α) :
    Nat × List ℚ × Except ExcKind α :=
  tenacityGo f 3 2 1

/-! ### Schema validation: `InvoiceData.validate_italian_vat`
(document_models.py lines 36-43) -/

/-- Python `str.isdigit` restricted to ASCII: true iff the string is nonempty
and every character is a decimal digit. -/
def pyIsDigitStr (s : List Char) : Bool := !s.isEmpty && s.all Char.isDigit

/-- Line 40: `v.replace(" ", "").replace(".", "")`. -/
def cleanedVat (v : List Char) : List Char :=
  (v.filter (fun c => c != ' ')).filter (fun c => c != '.')

/-- Lines 38-43: raise (`none`) unless the stripped value is all digits and of
length 11; otherwise return the stripped value. -/
def validate_italian_vat (v : List Char) : Option (List Char) :=
  let cleaned := cleanedVat v
  if pyIsDigitStr cleaned && cleaned.length == 11 then some cleaned else none

/-- How pydantic surfaces the `field_validator` of lines 36-43 (external
library behaviour, modelled from pydantic's documented semantics): a validator
that raises `ValueError` for a field makes model validation fail with an error
naming that field; a validator that returns replaces the field's value. -/
def validateVatField (fieldName : List Char) (v : List Char) :
    Except (List Char) (List Char) :=
  match validate_italian_vat v with
  | some c => Except.ok c
  | none => Except.error fieldName

/-! ### Batch orchestrator: `DocumentProcessor.batch_process_documents`
(document_models.py lines 131-158)

`extract` abstracts `self.extract_invoice_data`: `some data` when the
pipeline returns, `none` when it raises (the `except Exception` of lines
145-147 turns any raise into the pair `(doc_id, None)`).  `asyncio.gather`
(line 150) returns every task's result in task order, so the per-item phase
is `List.map`; line 152 keeps only the pairs whose data is not `None`. -/

def batch_process_documents {Id Doc Data : Type} (extract : Doc → Option Data)
    (documents : List (Id × Doc)) : List (Id × Data) :=
  let results := documents.map (fun item => (item.1, extract item.2))
  results.filterMap (fun r => Option.map (fun d => (r.1, d)) r.2)

/-! ### Response cleanup: `extract_structured_data`, lines 174-180 -/

/-- Python `str.strip` whitespace set (ASCII part). -/
def isWS (c : Char) : Bool :=
  c == ' ' || c == '\n' || c == '\t' || c == '\r' || c == '\x0b' || c == '\x0c'

/-- Drop leading whitespace. -/
def trimL : List Char → List Char
  | [] => []
  | c :: cs => if isWS c then trimL cs else c :: cs

/-- Drop trailing whitespace. -/
def trimR : List Char → List Char
  | [] => []
  | c :: cs =>
    match trimR cs with
    | [] => if isWS c then [] else [c]
    | r => c :: r

/-- Python `str.strip()`: drop whitespace at both ends. -/
def pyStrip (s : List Char) : List Char := trimR (trimL s)

/-- The backtick character. -/
def fenceChar : Char := Char.ofNat 96

/-- The fenced-block marker: three backticks. -/
def fenceMarker : List Char := [fenceChar, fenceChar, fenceChar]

/-- The characters before the first occurrence of `fenceMarker` (the whole
list when there is none).  After the guard `clean_json.startswith("```")` of
line 176, Python's `clean_json.split("```")[1]` is exactly
`takeUntilFence (clean_json.drop 3)`: the text strictly between the first
marker (at position 0) and the next one, or everything after the first marker
when no second occurrence exists. -/
def takeUntilFence : List Char → List Char
  | [] => []
  | c :: cs => if fenceMarker.isPrefixOf (c :: cs) then [] else c :: takeUntilFence cs

/-- The cleanup of lines 174-180: strip; if fenced, take the first fenced
segment and drop a leading `json` tag (`clean_json[4:]`, line 179); strip
again. -/
def cleanJson (json_response : List Char) : List Char :=
  let s1 := pyStrip json_response
  let s2 :=
    if fenceMarker.isPrefixOf s1 then
      let seg := takeUntilFence (s1.drop 3)
      if ("json".toList).isPrefixOf seg then seg.drop 4 else seg
    else s1
  pyStrip s2

/-- A response wrapped as a fenced block with language tag `json`. -/
def wrapFencedJson (content : List Char) : List Char :=
  fenceMarker ++ "json".toList ++ '\n' :: content ++ '\n' :: fenceMarker

/-- A response wrapped as a fenced block with an arbitrary language tag. -/
def wrapFenced (tag content : List Char) : List Char :=
  fenceMarker ++ tag ++ '\n' :: content ++ '\n' :: fenceMarker

/-! ### Parse-and-validate tail of `extract_structured_data`
(azure_openai_service.py lines 182-187)

`json.loads` and `response_model.model_validate` are external calls, passed
as parameters returning either a value or the message of the exception they
raise (`json.JSONDecodeError` — a `ValueError` subclass — for `parse`;
pydantic `ValidationError` — also a `ValueError` subclass — for `validate`).
The clause `except (json.JSONDecodeError, ValueError) as e` catches both and
re-raises `ValueError(f"Impossibile parsare risposta come JSON: {e}")`. -/

/-- The exception value that `extract_structured_data` lets escape. -/
inductive PyExc where
  | valueError (msg : List Char)
deriving DecidableEq

/-- Message prefix of the re-raised exception (line 187). -/
def errPrefix : List Char := "Impossibile parsare risposta come JSON: ".toList

/-- Lines 174-187 after the remote call returned `json_response`. -/
def extract_structured_data_tail {J T : Type} (parse : List Char → Except (List Char) J)
    (validate : J → Except (List Char) T) (json_response : List Char) : Except PyExc T :=
  let clean_json := cleanJson json_response
  match parse clean_json with
  | Except.error e => Except.error (PyExc.valueError (errPrefix ++ e))
  | Except.ok data =>
    match validate data with
    | Except.error e => Except.error (PyExc.valueError (errPrefix ++ e))
    | Except.ok v => Except.ok v

/-- A minimal concrete parser standing in for `json.loads`, for evaluating the
pipeline tail on explicit inputs: accepts exactly the text `1`. -/
def toyParse : List Char → Except (List Char) Nat :=
  fun s => if s = "1".toList then Except.ok 1 else Except.error ("Expecting value".toList)

/-- A minimal concrete schema validator standing in for
`model_validate`: accepts exactly the value `0`. -/
def toyValidate : Nat → Except (List Char) Nat :=
  fun n => if n = 0 then Except.ok n else Except.error ("schema violation: field x".toList)

/-! ### Percentile computation: `APIMetrics.p95_response_time`
(monitoring.py lines 31-37) -/

/-- Insertion into an ascending list. -/
def sortedInsert (x : ℚ) : List ℚ → List ℚ
  | [] => [x]
  | y :: ys => if x ≤ y then x :: y :: ys else y :: sortedInsert x ys

/-- `sorted(...)` ascending.  (Any comparison sort of a list of rationals
yields the same value list, so insertion sort models Python's `sorted`.) -/
def sortedAsc (l : List ℚ) : List ℚ := l.foldr sortedInsert []

/-- Lines 31-37: `0` on an empty sample set, else the sorted entry at index
`int(len * 0.95)`.  For a natural `n`, `int(n * 0.95)` is `⌊0.95 n⌋ = 19n/20`
(ℕ-division); the index is always in range, so `getD _ 0` equals the Python
subscript. -/
def p95_response_time (response_times : List ℚ) : ℚ :=
  if response_times.isEmpty then 0
  else (sortedAsc response_times).getD (19 * response_times.length / 20) 0

/-- The index the specification prescribes: `ceil(0.95 * count) - 1`,
i.e. `⌈19n/20⌉ - 1 = (19n + 19)/20 - 1` in ℕ. -/
def specP95Index (n : Nat) : Nat := (19 * n + 19) / 20 - 1

/-! ## Helper lemmas -/

theorem tokenSum_prune_le (cfg : RateLimiterConfig) (s : RateLimiterState) (now : Int) :
    tokenSum (pruneState cfg s now) ≤ tokenSum s := by
  unfold tokenSum pruneState
  refine List.Sublist.sum_le_sum ?_ (fun a _ => Nat.zero_le a)
  exact (List.filter_sublist _).map _

theorem tokenSum_append (s : RateLimiterState) (now : Int) (est : Nat) :
    tokenSum { s with tokens_used := s.tokens_used ++ [(now, est)] } = tokenSum s + est := by
  simp [tokenSum]

theorem limiterInv_step (cfg : RateLimiterConfig) (s : RateLimiterState) (now : Int) (est : Nat)
    (h : s.requests.length ≤ cfg.max_requests ∧ tokenSum s ≤ cfg.max_tokens) :
    (acquireStep cfg s now est).1.requests.length ≤ cfg.max_requests
      ∧ tokenSum (acquireStep cfg s now est).1 ≤ cfg.max_tokens := by
  have hlen : (pruneState cfg s now).requests.length ≤ s.requests.length :=
    List.length_filter_le _ _
  have htok := tokenSum_prune_le cfg s now
  simp only [acquireStep]
  split
  · exact ⟨le_trans hlen h.1, le_trans htok h.2⟩
  · rename_i hc
    push_neg at hc
    refine ⟨by simpa using hc.1, ?_⟩
    have h2 := hc.2
    simp [tokenSum] at h2 ⊢
    omega

theorem limiterInv_run (cfg : RateLimiterConfig) (events : List (Int × Nat)) :
    (runLimiter cfg events).requests.length ≤ cfg.max_requests
      ∧ tokenSum (runLimiter cfg events) ≤ cfg.max_tokens := by
  suffices h : ∀ (l : List (Int × Nat)) (s : RateLimiterState),
      s.requests.length ≤ cfg.max_requests ∧ tokenSum s ≤ cfg.max_tokens →
      (l.foldl (fun s e => (acquireStep cfg s e.1 e.2).1) s).requests.length ≤ cfg.max_requests
        ∧ tokenSum (l.foldl (fun s e => (acquireStep cfg s e.1 e.2).1) s) ≤ cfg.max_tokens by
    exact h events RateLimiterState.init ⟨Nat.zero_le _, Nat.zero_le _⟩
  intro l
  induction l with
  | nil => intro s hs; exact hs
  | cons e l ih =>
    intro s hs
    exact ih _ (limiterInv_step cfg s e.1 e.2 hs)

theorem pruneState_idem (cfg : RateLimiterConfig) (s : RateLimiterState) (now : Int) :
    pruneState cfg (pruneState cfg s now) now = pruneState cfg s now := by
  simp [pruneState, List.filter_filter]

theorem record_request_counts (m : APIMetrics) (success : Bool) (tokens_used : Nat)
    (response_time : ℚ) (error : Option (List Char)) :
    (record_request m success tokens_used response_time error).total_requests
        = m.total_requests + 1
      ∧ (record_request m success tokens_used response_time error).successful_requests
          + (record_request m success tokens_used response_time error).failed_requests
        = m.successful_requests + m.failed_requests + 1
      ∧ (record_request m success tokens_used response_time error).response_times
        = m.response_times ++ [response_time] := by
  cases success <;> cases error <;> simp [record_request] <;> omega

theorem runMetrics_counts (events : List ReqEvent) :
    (runMetrics events).total_requests
        = (runMetrics events).successful_requests + (runMetrics events).failed_requests
      ∧ (runMetrics events).response_times.length = (runMetrics events).total_requests
      ∧ (runMetrics events).total_requests = events.length := by
  suffices h : ∀ (l : List ReqEvent) (m : APIMetrics),
      (m.total_requests = m.successful_requests + m.failed_requests
        ∧ m.response_times.length = m.total_requests) →
      ((l.foldl (fun m e => record_request m e.success e.tokens_used e.response_time e.error) m).total_requests
          = (l.foldl (fun m e => record_request m e.success e.tokens_used e.response_time e.error) m).successful_requests
            + (l.foldl (fun m e => record_request m e.success e.tokens_used e.response_time e.error) m).failed_requests
        ∧ (l.foldl (fun m e => record_request m e.success e.tokens_used e.response_time e.error) m).response_times.length
          = (l.foldl (fun m e => record_request m e.success e.tokens_used e.response_time e.error) m).total_requests
        ∧ (l.foldl (fun m e => record_request m e.success e.tokens_used e.response_time e.error) m).total_requests
          = m.total_requests + l.length) by
    have := h events APIMetrics.init ⟨rfl, rfl⟩
    exact ⟨this.1, this.2.1, by simpa [APIMetrics.init] using this.2.2⟩
  intro l
  induction l with
  | nil => intro m hm; exact ⟨hm.1, hm.2, rfl⟩
  | cons e l ih =>
    intro m hm
    simp only [List.foldl_cons, List.length_cons]
    have hrec := record_request_counts m e.success e.tokens_used e.response_time e.error
    have hnext : (record_request m e.success e.tokens_used e.response_time e.error).total_requests
        = (record_request m e.success e.tokens_used e.response_time e.error).successful_requests
          + (record_request m e.success e.tokens_used e.response_time e.error).failed_requests
        ∧ (record_request m e.success e.tokens_used e.response_time e.error).response_times.length
          = (record_request m e.success e.tokens_used e.response_time e.error).total_requests := by
      constructor
      · omega
      · rw [hrec.2.2, List.length_append, hm.2, hrec.1]
        rfl
    have := ih (record_request m e.success e.tokens_used e.response_time e.error) hnext
    refine ⟨this.1, this.2.1, ?_⟩
    rw [this.2.2, hrec.1]
    omega

/-! ## Claim theorems -/

/-- C1: for every sequence of `acquire` decisions, after any prefix of the
trace the recorded request timestamps inside any trailing window never number
more than `max_requests` and the recorded token amounts inside any trailing
window (the newly admitted estimate included, since admission records it) never
sum to more than `max_tokens`; moreover every admission decision is taken on
the pruned ledgers: deciding on a pre-pruned state is the same decision. -/
theorem C1_budget_window_invariant (cfg : RateLimiterConfig) (events : List (Int × Nat))
    (k : Nat) (t : Int) :
    (((runLimiter cfg (events.take k)).requests.filter
        (fun r => t - cfg.window_seconds < r)).length ≤ cfg.max_requests
      ∧ tokenSum (pruneState cfg (runLimiter cfg (events.take k)) t) ≤ cfg.max_tokens)
    ∧ (∀ (s : RateLimiterState) (now : Int) (est : Nat),
        acquireStep cfg (pruneState cfg s now) now est = acquireStep cfg s now est) := by
  constructor
  · have h := limiterInv_run cfg (events.take k)
    constructor
    · exact le_trans (List.length_filter_le _ _) h.1
    · exact le_trans (tokenSum_prune_le cfg _ t) h.2
  · intro s now est
    unfold acquireStep
    rw [pruneState_idem]

/-- C2: contrary to the claim, `acquire` does suspend while holding the Budget
Tracker's lock: on the over-limit path the `asyncio.sleep` of line 54 and the
recursive re-acquisition of the lock (line 55) both happen at lock depth 1,
inside the single `async with self._lock` region. -/
theorem C2_sleep_holds_lock :
    ¬ (∀ e ∈ acquireEventTrace true, e.1 = LockEv.sleepEv → e.2 = 0)
    ∧ (LockEv.sleepEv, 1) ∈ acquireEventTrace true
    ∧ (LockEv.lockAttempt, 1) ∈ acquireEventTrace true := by
  decide

/-- C10: after every sequence of `record_request` calls the counters are
mutually consistent: `total_requests` is `successful_requests +
failed_requests`, one latency sample is stored per request, `total_requests`
counts the calls, `success_rate` is `0` when nothing was recorded and
`successful_requests / total_requests` once something was. -/
theorem C10_metrics_consistency (events : List ReqEvent) :
    (runMetrics events).total_requests
        = (runMetrics events).successful_requests + (runMetrics events).failed_requests
    ∧ (runMetrics events).response_times.length = (runMetrics events).total_requests
    ∧ (runMetrics events).total_requests = events.length
    ∧ success_rate (runMetrics []) = 0
    ∧ (0 < (runMetrics events).total_requests →
        success_rate (runMetrics events)
          = ((runMetrics events).successful_requests : ℚ) / (runMetrics events).total_requests) := by
  have h := runMetrics_counts events
  refine ⟨h.1, h.2.1, h.2.2, rfl, ?_⟩
  intro hpos
  unfold success_rate
  rw [if_neg (Nat.pos_iff_ne_zero.mp hpos)]

/-- Witness for C10 at one concrete recorded request. -/
theorem C10_metrics_consistency_witness :
    0 < (runMetrics [⟨true, 5, 3, none⟩]).total_requests
    ∧ success_rate (runMetrics [⟨true, 5, 3, none⟩])
      = ((runMetrics [⟨true, 5, 3, none⟩]).successful_requests : ℚ)
        / (runMetrics [⟨true, 5, 3, none⟩]).total_requests :=
  ⟨by decide, (C10_metrics_consistency [⟨true, 5, 3, none⟩]).2.2.2.2 (by decide)⟩

/-- The identifiers `batch_process_documents` returns are exactly the
identifiers of the items whose extraction succeeded, in order. -/
theorem batch_ids_eq_filter {Id Doc Data : Type} (extract : Doc → Option Data)
    (documents : List (Id × Doc)) :
    (batch_process_documents extract documents).map Prod.fst
      = (documents.filter (fun p => (extract p.2).isSome)).map Prod.fst := by
  induction documents with
  | nil => rfl
  | cons p ps ih =>
    simp only [batch_process_documents, List.filterMap_map] at ih ⊢
    cases h : extract p.2 <;>
      simp [List.filterMap_cons, List.filter_cons, h, ih, Function.comp]

/-- C3 counterexample: a batch with one item whose extraction fails returns an
empty result, so the caller-supplied identifier appears zero times, not
exactly once as the claim states. -/
theorem C3_counterexample :
    batch_process_documents (fun _ : Nat => (none : Option Nat)) [(("doc1".toList : List Char), 7)]
        = ([] : List (List Char × Nat))
    ∧ ((batch_process_documents (fun _ : Nat => (none : Option Nat))
        [(("doc1".toList : List Char), 7)]).map Prod.fst).count ("doc1".toList) = 0
    ∧ (0 : Nat) ≠ 1 := by
  decide

/-- C3 amended: `batch_process_documents` returns exactly one pair per
*successfully extracted* item — its identifier list is the identifier list of
the succeeding items (so, when the caller-supplied identifiers are distinct,
each succeeding identifier appears exactly once and no duplicate ever
appears), while failed items are dropped from the result; one item's failure
or success does not remove, cancel or alter any other item's outcome: the
batch result is the concatenation of the per-sublist results. -/
theorem C3_batch_outcomes_amended {Id Doc Data : Type} (extract : Doc → Option Data)
    (documents : List (Id × Doc)) :
    ((batch_process_documents extract documents).map Prod.fst
        = (documents.filter (fun p => (extract p.2).isSome)).map Prod.fst)
    ∧ ((documents.map Prod.fst).Nodup →
        ((batch_process_documents extract documents).map Prod.fst).Nodup)
    ∧ (∀ l1 l2 : List (Id × Doc),
        batch_process_documents extract (l1 ++ l2)
          = batch_process_documents extract l1 ++ batch_process_documents extract l2) := by
  refine ⟨batch_ids_eq_filter extract documents, ?_, ?_⟩
  · intro hnd
    rw [batch_ids_eq_filter extract documents]
    exact hnd.sublist ((List.filter_sublist _).map _)
  · intro l1 l2
    simp [batch_process_documents]

/-- Witness for C3 at a concrete two-item batch whose identifiers are
distinct and whose second item fails. -/
theorem C3_batch_outcomes_amended_witness :
    ((batch_process_documents (fun n : Nat => if n = 1 then some 10 else none)
        [(("a".toList : List Char), 1), (("b".toList : List Char), 2)]).map Prod.fst).Nodup :=
  (C3_batch_outcomes_amended (fun n : Nat => if n = 1 then some 10 else none)
      [(("a".toList : List Char), 1), (("b".toList : List Char), 2)]).2.1 (by decide)

/-- The stripped VAT value of an all-digit string is the string itself. -/
theorem cleanedVat_of_digits (s : List Char) (h : s.all Char.isDigit = true) :
    cleanedVat s = s := by
  unfold cleanedVat
  rw [List.all_eq_true] at h
  rw [List.filter_eq_self.mpr, List.filter_eq_self.mpr]
  · intro a ha
    have hd := h a ha
    refine bne_iff_ne.mpr (fun heq => ?_)
    rw [heq] at hd
    exact absurd hd (by decide)
  · intro a ha
    have hd := h a (List.mem_filter.mp ha).1
    refine bne_iff_ne.mpr (fun heq => ?_)
    rw [heq] at hd
    exact absurd hd (by decide)

/-- C7: the 11-digit identifier validator strips separators and re-checks the
digit count on the stripped value: `"123 456 789.01"` normalizes to the 11
digits `12345678901` and validates; any input whose stripped form is not a
string of exactly 11 digits makes model validation fail with an error naming
the field. -/
theorem C7_vat_separator_stripping :
    validate_italian_vat ("123 456 789.01".toList) = some ("12345678901".toList)
    ∧ ∀ v : List Char,
        (pyIsDigitStr (cleanedVat v) && (cleanedVat v).length == 11) = false →
        validateVatField ("supplier_vat".toList) v = Except.error ("supplier_vat".toList) := by
  refine ⟨by decide, ?_⟩
  intro v h
  simp [validateVatField, validate_italian_vat, h]

/-- Witness for C7 at the 10-digit input the specification names. -/
theorem C7_vat_separator_stripping_witness :
    validateVatField ("supplier_vat".toList) ("1234567890".toList)
      = Except.error ("supplier_vat".toList) :=
  C7_vat_separator_stripping.2 ("1234567890".toList) (by decide)

/-- C9: validation is idempotent (and, being a function of the value alone in
this embedding, pure): a value returned by a successful validation validates
again to itself. -/
theorem C9_validation_idempotent (v c : List Char)
    (h : validate_italian_vat v = some c) :
    validate_italian_vat c = some c := by
  simp only [validate_italian_vat] at h ⊢
  split at h
  · rename_i hcond
    have hc : cleanedVat v = c := Option.some.inj h
    have hdig : (cleanedVat v).all Char.isDigit = true := by
      unfold pyIsDigitStr at hcond
      have h1 := ((Bool.and_eq_true _ _).mp hcond).1
      exact ((Bool.and_eq_true _ _).mp h1).2
    have hid : cleanedVat c = c := by
      rw [← hc]
      exact cleanedVat_of_digits _ hdig
    rw [hc] at hcond
    rw [hid, if_pos hcond]
  · exact absurd h (by simp)

/-- Witness for C9 at the normalized value of the specification's example. -/
theorem C9_validation_idempotent_witness :
    validate_italian_vat ("12345678901".toList) = some ("12345678901".toList) :=
  C9_validation_idempotent ("123 456 789.01".toList) ("12345678901".toList) (by decide)

theorem wait_chat_1 : wait_exponential_chat 1 = 2 := by
  norm_num [wait_exponential_chat, pyMax, pyMin]

theorem wait_chat_2 : wait_exponential_chat 2 = 2 := by
  norm_num [wait_exponential_chat, pyMax, pyMin]

theorem pyMin_le_right (a b : ℚ) : pyMin a b ≤ b := by
  unfold pyMin
  split
  · exact le_refl b
  · rename_i h
    exact le_of_not_lt h

theorem pyMax_le {a b c : ℚ} (ha : a ≤ c) (hb : b ≤ c) : pyMax a b ≤ c := by
  unfold pyMax
  split <;> assumption

theorem wait_chat_le (n : Nat) : wait_exponential_chat n ≤ 10 := by
  unfold wait_exponential_chat
  exact pyMax_le (by norm_num [pyMax]) (pyMin_le_right _ _)

/-- C5 counterexample: with every attempt failing on `TimeoutError`, the
backoff delays actually waited are `[2, 2]` — the delay before attempt 3 is
`2`, not the `4` the claim computes. -/
theorem C5_backoff_counterexample :
    (complete_chat_run (fun _ => (Except.error ExcKind.timeoutExc : Except ExcKind Unit))).2.1
        = [2, 2]
    ∧ ([2, 2] : List ℚ) ≠ [2, 4] := by
  constructor
  · simp [complete_chat_run, tenacityGo, retryableExc, wait_chat_1, wait_chat_2]
  · decide

/-- C5 amended: the executor retries only failures in the retryable set
(`TimeoutError`, `ConnectionError`); before each retry it waits
`max(2, min(1 * 2^(attempt-1), 10))` — concretely `2` before attempt 2 and
`2` before attempt 3, never exceeding `10` — and it never makes a 4th
attempt regardless of the 3rd attempt's outcome. -/
theorem C5_retry_policy_amended (f : Nat → Except ExcKind Unit) :
    (complete_chat_run f).1 ≤ 3
    ∧ (complete_chat_run f).2.1.length ≤ 2
    ∧ (complete_chat_run f).2.1
        = (List.range' 1 (complete_chat_run f).2.1.length).map wait_exponential_chat
    ∧ wait_exponential_chat 1 = 2
    ∧ wait_exponential_chat 2 = 2
    ∧ (∀ n : Nat, wait_exponential_chat n ≤ 10)
    ∧ (∀ e, retryableExc e = false → f 1 = Except.error e →
        complete_chat_run f = (1, [], Except.error e)) := by
  rcases h1 : f 1 with e1 | v1
  · cases hre1 : retryableExc e1 with
    | false =>
      have hr : complete_chat_run f = (1, [], Except.error e1) := by
        simp [complete_chat_run, tenacityGo, h1, hre1]
      rw [hr]
      refine ⟨by norm_num, by simp, by simp [List.range'], wait_chat_1, wait_chat_2, wait_chat_le, ?_⟩
      intro e hre hf
      injection hf with he
      rw [he]
    | true =>
      rcases h2 : f 2 with e2 | v2
      · cases hre2 : retryableExc e2 with
        | false =>
          have hr : complete_chat_run f = (2, [wait_exponential_chat 1], Except.error e2) := by
            simp [complete_chat_run, tenacityGo, h1, hre1, h2, hre2]
          rw [hr]
          refine ⟨by norm_num, by simp, by simp [List.range'], wait_chat_1, wait_chat_2, wait_chat_le, ?_⟩
          intro e hre hf
          injection hf with he
          rw [← he, hre1] at hre
          exact absurd hre (by simp)
        | true =>
          have hr : complete_chat_run f
              = (3, [wait_exponential_chat 1, wait_exponential_chat 2], f 3) := by
            simp [complete_chat_run, tenacityGo, h1, hre1, h2, hre2]
          rw [hr]
          refine ⟨le_refl 3, by simp, by simp [List.range'], wait_chat_1, wait_chat_2, wait_chat_le, ?_⟩
          intro e hre hf
          injection hf with he
          rw [← he, hre1] at hre
          exact absurd hre (by simp)
      · have hr : complete_chat_run f = (2, [wait_exponential_chat 1], Except.ok v2) := by
          simp [complete_chat_run, tenacityGo, h1, hre1, h2]
        rw [hr]
        refine ⟨by norm_num, by simp, by simp [List.range'], wait_chat_1, wait_chat_2, wait_chat_le, ?_⟩
        intro e hre hf
        injection hf with he
        rw [← he, hre1] at hre
        exact absurd hre (by simp)
  · have hr : complete_chat_run f = (1, [], Except.ok v1) := by
      simp [complete_chat_run, tenacityGo, h1]
    rw [hr]
    refine ⟨by norm_num, by simp, by simp [List.range'], wait_chat_1, wait_chat_2, wait_chat_le, ?_⟩
    intro e hre hf
    exact absurd hf (by simp)

/-- Witness for C5 at a non-retryable first failure: no retry happens. -/
theorem C5_retry_policy_amended_witness :
    complete_chat_run (fun _ => (Except.error ExcKind.otherExc : Except ExcKind Unit))
      = (1, [], Except.error ExcKind.otherExc) :=
  (C5_retry_policy_amended (fun _ => (Except.error ExcKind.otherExc : Except ExcKind Unit))).2.2.2.2.2.2
    ExcKind.otherExc (by decide) rfl

/-- C4 counterexample: on a response that is not well-formed (`not json`) the
pipeline tail raises `ValueError` instead of returning a `ParseFailure`
outcome, and on a well-formed response failing schema validation (`1`) it
raises the very same exception constructor with the same message shape
instead of a distinct `SchemaViolation` outcome — the two failure kinds are
not distinguishable by type, and both escape the pipeline's boundary as a
raised exception. -/
theorem C4_failure_routing_counterexample :
    extract_structured_data_tail toyParse toyValidate ("not json".toList)
      = Except.error (PyExc.valueError (errPrefix ++ "Expecting value".toList))
    ∧ extract_structured_data_tail toyParse toyValidate ("1".toList)
      = Except.error (PyExc.valueError (errPrefix ++ "schema violation: field x".toList)) :=
  ⟨rfl, rfl⟩

/-- C4 amended: a parse failure and a schema-validation failure are both
surfaced by raising `ValueError` whose message is the fixed prefix followed
by the underlying error text (pydantic's `ValidationError` being a
`ValueError` subclass, the `except` clause catches it too); the pipeline
raises past its boundary rather than returning a typed outcome, and the two
failure kinds share one exception constructor. -/
theorem C4_failure_routing_amended {J T : Type} (parse : List Char → Except (List Char) J)
    (validate : J → Except (List Char) T) (resp : List Char) :
    (∀ e, parse (cleanJson resp) = Except.error e →
        extract_structured_data_tail parse validate resp
          = Except.error (PyExc.valueError (errPrefix ++ e)))
    ∧ (∀ (j : J) (e : List Char), parse (cleanJson resp) = Except.ok j →
        validate j = Except.error e →
        extract_structured_data_tail parse validate resp
          = Except.error (PyExc.valueError (errPrefix ++ e))) := by
  constructor
  · intro e he
    simp [extract_structured_data_tail, he]
  · intro j e hj hv
    simp [extract_structured_data_tail, hj, hv]

/-- Witness for C4 on concrete failing inputs for both routes. -/
theorem C4_failure_routing_amended_witness :
    extract_structured_data_tail toyParse toyValidate ("x".toList)
      = Except.error (PyExc.valueError (errPrefix ++ "Expecting value".toList))
    ∧ extract_structured_data_tail toyParse toyValidate ("1".toList)
      = Except.error (PyExc.valueError (errPrefix ++ "schema violation: field x".toList)) :=
  ⟨(C4_failure_routing_amended toyParse toyValidate ("x".toList)).1
      ("Expecting value".toList) rfl,
   (C4_failure_routing_amended toyParse toyValidate ("1".toList)).2
      1 ("schema violation: field x".toList) rfl rfl⟩

/-- C8 counterexample: on 20 samples `1..20` the code returns the entry at
index `int(20 * 0.95) = 19` (the maximum, `20`), while the claim's index
`ceil(0.95 * 20) - 1 = 18` holds `19`. -/
theorem C8_p95_counterexample :
    p95_response_time [1,2,3,4,5,6,7,8,9,10,11,12,13,14,15,16,17,18,19,20] = 20
    ∧ (sortedAsc [1,2,3,4,5,6,7,8,9,10,11,12,13,14,15,16,17,18,19,20]).getD (specP95Index 20) 0
        = 19
    ∧ ((20 : ℚ) ≠ 19) := by
  decide

/-- C8 amended: the 95th-percentile computation sorts the samples and selects
the entry at index `⌊0.95·count⌋`, which coincides with the claim's
`ceil(0.95·count) - 1` exactly when the count is not a multiple of 20 (as in
the specification's 10-sample example); it returns `0` on an empty sample
set. -/
theorem C8_p95_amended :
    p95_response_time [] = 0
    ∧ ∀ (l : List ℚ), l ≠ [] → ¬ (20 ∣ l.length) →
        p95_response_time l = (sortedAsc l).getD (specP95Index l.length) 0 := by
  refine ⟨rfl, ?_⟩
  intro l hne h20
  cases l with
  | nil => exact absurd rfl hne
  | cons a as =>
    rw [List.length_cons] at h20
    have hidx : 19 * (as.length + 1) / 20 = specP95Index (as.length + 1) := by
      simp only [specP95Index]
      obtain ⟨q, r, hr1, hr19, hn⟩ :
          ∃ q r, 1 ≤ r ∧ r ≤ 19 ∧ as.length + 1 = 20 * q + r :=
        ⟨(as.length + 1) / 20, (as.length + 1) % 20, by omega, by omega, by omega⟩
      rw [hn]
      interval_cases r <;> omega
    simp only [p95_response_time, List.isEmpty_cons, List.length_cons, hidx]
    rfl

/-- Witness for C8 at the specification's 10-sample example. -/
theorem C8_p95_amended_witness :
    ¬ (20 ∣ ([100,200,300,400,500,600,700,800,900,1000] : List ℚ).length)
    ∧ p95_response_time [100,200,300,400,500,600,700,800,900,1000]
      = (sortedAsc [100,200,300,400,500,600,700,800,900,1000]).getD
          (specP95Index ([100,200,300,400,500,600,700,800,900,1000] : List ℚ).length) 0 :=
  ⟨by decide, C8_p95_amended.2 _ (by decide) (by decide)⟩

theorem trimL_cons_ws {c : Char} (hc : isWS c = true) (s : List Char) :
    trimL (c :: s) = trimL s := by
  simp [trimL, hc]

theorem trimL_cons_not {c : Char} (hc : isWS c = false) (s : List Char) :
    trimL (c :: s) = c :: s := by
  simp [trimL, hc]

theorem trimL_idem (s : List Char) : trimL (trimL s) = trimL s := by
  induction s with
  | nil => rfl
  | cons c cs ih =>
    cases hc : isWS c with
    | true =>
      rw [trimL_cons_ws hc]
      exact ih
    | false =>
      rw [trimL_cons_not hc]
      exact trimL_cons_not hc cs

theorem trimL_length_le (s : List Char) : (trimL s).length ≤ s.length := by
  induction s with
  | nil => exact Nat.le_refl 0
  | cons c cs ih =>
    cases hc : isWS c with
    | true =>
      rw [trimL_cons_ws hc]
      exact le_trans ih (by simp)
    | false =>
      rw [trimL_cons_not hc]

theorem trimL_append (s t : List Char) :
    trimL (s ++ t) = if trimL s = [] then trimL t else trimL s ++ t := by
  induction s with
  | nil => simp [trimL]
  | cons c cs ih =>
    cases hc : isWS c with
    | true =>
      rw [List.cons_append, trimL_cons_ws hc (cs ++ t), trimL_cons_ws hc cs, ih]
    | false =>
      rw [List.cons_append, trimL_cons_not hc (cs ++ t), trimL_cons_not hc cs]
      simp

theorem mem_trimL {c : Char} {s : List Char} (h : c ∈ trimL s) : c ∈ s := by
  induction s with
  | nil => exact h
  | cons a as ih =>
    cases ha : isWS a with
    | true =>
      rw [trimL_cons_ws ha] at h
      exact List.mem_cons_of_mem a (ih h)
    | false =>
      rw [trimL_cons_not ha] at h
      exact h

theorem trimR_cons_nil {c : Char} {s : List Char} (h : trimR s = []) :
    trimR (c :: s) = if isWS c then [] else [c] := by
  simp [trimR, h]

theorem trimR_cons_ne {c : Char} {s : List Char} (h : trimR s ≠ []) :
    trimR (c :: s) = c :: trimR s := by
  cases hr : trimR s with
  | nil => exact absurd hr h
  | cons d ds => simp [trimR, hr]

theorem trimR_singleton (c : Char) : trimR [c] = if isWS c then [] else [c] :=
  trimR_cons_nil rfl

theorem trimR_append_ws {b : Char} (hb : isWS b = true) (s : List Char) :
    trimR (s ++ [b]) = trimR s := by
  induction s with
  | nil => simp [trimR_singleton, hb, trimR]
  | cons c cs ih =>
    rw [List.cons_append]
    cases hr : trimR cs with
    | nil =>
      rw [trimR_cons_nil (by rw [ih, hr]), trimR_cons_nil hr]
    | cons d ds =>
      have h1 : trimR (cs ++ [b]) ≠ [] := by
        rw [ih, hr]
        exact List.cons_ne_nil d ds
      have h2 : trimR cs ≠ [] := by
        rw [hr]
        exact List.cons_ne_nil d ds
      rw [trimR_cons_ne h1, ih, trimR_cons_ne h2]

theorem trimR_keep {t : List Char} (ht : trimR t = t) (hne : t ≠ []) (s : List Char) :
    trimR (s ++ t) = s ++ t := by
  induction s with
  | nil => simpa using ht
  | cons c cs ih =>
    rw [List.cons_append]
    have h1 : trimR (cs ++ t) ≠ [] := by
      rw [ih]
      intro hc
      exact hne ((List.append_eq_nil.mp hc).2)
    rw [trimR_cons_ne h1, ih]

theorem mem_trimR {c : Char} {s : List Char} (h : c ∈ trimR s) : c ∈ s := by
  induction s with
  | nil => exact h
  | cons a as ih =>
    cases hr : trimR as with
    | nil =>
      rw [trimR_cons_nil hr] at h
      cases ha : isWS a with
      | true =>
        rw [ha] at h
        simp at h
      | false =>
        rw [ha] at h
        simp at h
        rw [h]
        exact List.mem_cons_self a as
    | cons d ds =>
      rw [trimR_cons_ne (by rw [hr]; exact List.cons_ne_nil d ds)] at h
      rcases List.mem_cons.mp h with h | h
      · rw [h]
        exact List.mem_cons_self a as
      · exact List.mem_cons_of_mem a (ih h)

theorem trimR_idem (s : List Char) : trimR (trimR s) = trimR s := by
  induction s with
  | nil => rfl
  | cons c cs ih =>
    cases hr : trimR cs with
    | nil =>
      rw [trimR_cons_nil hr]
      cases hc : isWS c with
      | true => simp [hc, trimR]
      | false => simp [hc, trimR_singleton]
    | cons d ds =>
      have hne : trimR cs ≠ [] := by
        rw [hr]
        exact List.cons_ne_nil d ds
      have hne2 : trimR (trimR cs) ≠ [] := by
        rw [ih]
        exact hne
      rw [trimR_cons_ne hne, trimR_cons_ne hne2, ih]

theorem trimL_trimR_self {t : List Char} (htt : trimL t = t) :
    trimL (trimR t) = trimR t := by
  cases t with
  | nil => rfl
  | cons c cs =>
    have hc : isWS c = false := by
      cases hy : isWS c with
      | false => rfl
      | true =>
        rw [trimL_cons_ws hy] at htt
        have hlen := trimL_length_le cs
        rw [htt] at hlen
        simp at hlen
    cases hr : trimR cs with
    | nil =>
      rw [trimR_cons_nil hr]
      simp [hc, trimL]
    | cons d ds =>
      rw [trimR_cons_ne (by rw [hr]; exact List.cons_ne_nil d ds)]
      exact trimL_cons_not hc _

theorem pyStrip_idem (s : List Char) : pyStrip (pyStrip s) = pyStrip s := by
  unfold pyStrip
  rw [trimL_trimR_self (trimL_idem s), trimR_idem]

theorem pyStrip_cons_ws {c : Char} (hc : isWS c = true) (s : List Char) :
    pyStrip (c :: s) = pyStrip s := by
  unfold pyStrip
  rw [trimL_cons_ws hc]

theorem pyStrip_append_ws {b : Char} (hb : isWS b = true) (s : List Char) :
    pyStrip (s ++ [b]) = pyStrip s := by
  unfold pyStrip
  rw [trimL_append]
  by_cases h : trimL s = []
  · rw [if_pos h, h, trimL_cons_ws hb]
    rfl
  · rw [if_neg h, trimR_append_ws hb]

theorem mem_pyStrip {c : Char} {s : List Char} (h : c ∈ pyStrip s) : c ∈ s :=
  mem_trimL (mem_trimR h)

theorem isWS_fenceChar : isWS fenceChar = false := by decide

theorem trimR_fenceMarker : trimR fenceMarker = fenceMarker := by decide

theorem json_toList : "json".toList = ['j', 's', 'o', 'n'] := by decide

theorem isPrefixOf_append_self (x y : List Char) : x.isPrefixOf (x ++ y) = true := by
  induction x with
  | nil => cases y <;> rfl
  | cons c cs ih => simp [List.isPrefixOf, ih]

theorem takeUntilFence_cons_pos {c : Char} {cs : List Char}
    (h : fenceMarker.isPrefixOf (c :: cs) = true) : takeUntilFence (c :: cs) = [] := by
  rw [show takeUntilFence (c :: cs)
      = if fenceMarker.isPrefixOf (c :: cs) then [] else c :: takeUntilFence cs from rfl, h]
  rfl

theorem takeUntilFence_cons_neg {c : Char} {cs : List Char}
    (h : fenceMarker.isPrefixOf (c :: cs) = false) :
    takeUntilFence (c :: cs) = c :: takeUntilFence cs := by
  rw [show takeUntilFence (c :: cs)
      = if fenceMarker.isPrefixOf (c :: cs) then [] else c :: takeUntilFence cs from rfl, h]
  rfl

theorem fence_not_prefix {t : List Char} (h : ∀ c ∈ t, c ≠ fenceChar) :
    fenceMarker.isPrefixOf t = false := by
  cases t with
  | nil => rfl
  | cons c cs =>
    have hc : (fenceChar == c) = false :=
      beq_eq_false_iff_ne.mpr (fun he => (h c (List.mem_cons_self c cs)) he.symm)
    simp [fenceMarker, List.isPrefixOf, hc]

theorem takeUntilFence_append (u : List Char) :
    ∀ s : List Char, (∀ c ∈ s, c ≠ fenceChar) →
      takeUntilFence (s ++ fenceMarker ++ u) = s := by
  intro s
  induction s with
  | nil =>
    intro _
    rw [List.nil_append]
    exact takeUntilFence_cons_pos (isPrefixOf_append_self fenceMarker u)
  | cons c cs ih =>
    intro h
    have hc : (fenceChar == c) = false :=
      beq_eq_false_iff_ne.mpr (fun he => (h c (List.mem_cons_self c cs)) he.symm)
    have hpre : fenceMarker.isPrefixOf (c :: (cs ++ fenceMarker ++ u)) = false := by
      simp [fenceMarker, List.isPrefixOf, hc]
    have hih := ih (fun d hd => h d (List.mem_cons_of_mem c hd))
    rw [List.cons_append, List.cons_append, takeUntilFence_cons_neg hpre, hih]

theorem pyStrip_fence_wrapped (mid : List Char) :
    pyStrip ((fenceMarker ++ mid) ++ fenceMarker) = (fenceMarker ++ mid) ++ fenceMarker := by
  unfold pyStrip
  have h1 : trimL ((fenceMarker ++ mid) ++ fenceMarker)
      = (fenceMarker ++ mid) ++ fenceMarker := by
    show trimL (fenceChar :: (([fenceChar, fenceChar] ++ mid) ++ fenceMarker)) = _
    rw [trimL_cons_not isWS_fenceChar]
    rfl
  rw [h1]
  exact trimR_keep trimR_fenceMarker (by decide) _

/-- C6 counterexample: with language tag `python` the tag text survives
cleanup, so the wrapped response does not parse identically to the unwrapped
content. -/
theorem C6_fenced_cleanup_counterexample :
    cleanJson (wrapFenced ("python".toList) ("x".toList)) = "python\nx".toList
    ∧ cleanJson ("x".toList) = "x".toList
    ∧ "python\nx".toList ≠ "x".toList := by
  refine ⟨by decide, by decide, by decide⟩

/-- C6 amended: for every content string containing no backtick (so the
fenced-block marker cannot occur inside it) wrapped with the language tag
`json`, cleanup of the wrapped response equals cleanup of the unwrapped
content; for other language tags the tag text is left in the output (see the
counterexample), and a backtick-bearing content can be truncated at the first
marker occurrence by the `split` of line 177. -/
theorem C6_fenced_cleanup_amended (content : List Char)
    (h : ∀ c ∈ content, c ≠ fenceChar) :
    cleanJson (wrapFencedJson content) = cleanJson content := by
  have hw : wrapFencedJson content
      = (fenceMarker ++ ("json".toList ++ ('\n' :: content) ++ ['\n'])) ++ fenceMarker := by
    simp [wrapFencedJson, List.append_assoc]
  have hmid : ∀ c ∈ ("json".toList ++ ('\n' :: content) ++ ['\n']), c ≠ fenceChar := by
    intro c hc
    rcases List.mem_append.mp hc with hc1 | hc2
    · rcases List.mem_append.mp hc1 with hc3 | hc4
      · rw [json_toList] at hc3
        fin_cases hc3 <;> decide
      · rcases List.mem_cons.mp hc4 with hce | hcc
        · rw [hce]
          decide
        · exact h c hcc
    · rw [List.mem_singleton.mp hc2]
      decide
  have hstrip : pyStrip (wrapFencedJson content) = wrapFencedJson content := by
    rw [hw]
    exact pyStrip_fence_wrapped _
  have hpre : fenceMarker.isPrefixOf (pyStrip (wrapFencedJson content)) = true := by
    rw [hstrip, hw, List.append_assoc]
    exact isPrefixOf_append_self _ _
  have hdrop : (pyStrip (wrapFencedJson content)).drop 3
      = ("json".toList ++ ('\n' :: content) ++ ['\n']) ++ fenceMarker := by
    rw [hstrip, hw, List.append_assoc]
    rfl
  have hseg : takeUntilFence ((pyStrip (wrapFencedJson content)).drop 3)
      = "json".toList ++ ('\n' :: content) ++ ['\n'] := by
    rw [hdrop, show (("json".toList ++ ('\n' :: content) ++ ['\n']) ++ fenceMarker)
        = ("json".toList ++ ('\n' :: content) ++ ['\n']) ++ fenceMarker ++ [] from
        (List.append_nil _).symm]
    exact takeUntilFence_append [] _ hmid
  have hjson : ("json".toList).isPrefixOf ("json".toList ++ ('\n' :: content) ++ ['\n'])
      = true := by
    rw [List.append_assoc]
    exact isPrefixOf_append_self _ _
  have hdrop4 : ("json".toList ++ ('\n' :: content) ++ ['\n']).drop 4
      = ('\n' :: content) ++ ['\n'] := by
    rw [List.append_assoc]
    rfl
  have hmem2 : ∀ c ∈ pyStrip content, c ≠ fenceChar := fun c hc => h c (mem_pyStrip hc)
  have hnp : fenceMarker.isPrefixOf (pyStrip content) = false := fence_not_prefix hmem2
  have hlhs : cleanJson (wrapFencedJson content) = pyStrip content := by
    simp only [cleanJson]
    rw [hseg, hpre, hjson]
    simp only [eq_self_iff_true, if_true]
    rw [hdrop4, List.cons_append,
      pyStrip_cons_ws (show isWS '\n' = true from by decide),
      pyStrip_append_ws (show isWS '\n' = true from by decide)]
  have hrhs : cleanJson content = pyStrip content := by
    simp only [cleanJson]
    rw [hnp]
    rw [if_neg Bool.false_ne_true]
    exact pyStrip_idem content
  rw [hlhs, hrhs]

/-- Witness for C6 at a concrete backtick-free content string. -/
theorem C6_fenced_cleanup_amended_witness :
    cleanJson (wrapFencedJson ("payload".toList)) = cleanJson ("payload".toList) :=
  C6_fenced_cleanup_amended ("payload".toList) (by decide)
